import Mathlib

/-!
Verification of the NFC attendance system core: edge capture pipeline
(durable buffer, sync engine), server ingestion (authentication,
idempotency, badge binding, anti-passback, direction inference), the
enrollment mailbox, and two frontend behaviours (auth logout cleanup,
live dashboard event feed).
-/

namespace NFCCore

/-- Delivery state of an edge-local capture record. -/
inductive DeliveryState
  | PENDING
  | SYNCED
  | FAILED
deriving DecidableEq

/-- Edge-local capture record, as in the data model. -/
structure CaptureRecord where
  local_id : String
  badge_id : String
  device_id : String
  captured_at : Nat
  delivery_state : DeliveryState
  attempt_count : Nat
  last_attempt_at : Option Nat
deriving DecidableEq

/-- Direction of a canonical attendance event. -/
inductive Direction
  | ARRIVAL
  | DEPARTURE
deriving DecidableEq

/-- Binding state of a badge. -/
inductive BadgeState
  | ACTIVE
  | UNBOUND
  | REVOKED
  | LOST
deriving DecidableEq

/-- A badge binding record (owned by the identity collaborator). -/
structure BadgeBinding where
  badge_id : String
  subject_id : Option String
  state : BadgeState
deriving DecidableEq

/-- Server-side canonical event (immutable once written). -/
structure CanonicalEvent where
  event_id : Nat
  subject_id : String
  badge_id : String
  direction : Direction
  occurred_at : Nat
  device_id : String
  idempotency_key : String
deriving DecidableEq

/-- A filled enrollment-mailbox slot. -/
structure MailboxSlot where
  badge_id : String
  detected_at : Nat
deriving DecidableEq

/-- Server state: canonical events newest-first (ingestion order), the
single-slot enrollment mailbox, and the next event identifier. -/
structure ServerState where
  events : List CanonicalEvent
  mailbox : Option MailboxSlot
  next_event_id : Nat
deriving DecidableEq

/-- Modelled from the spec: `publish(badge_id)` on the Enrollment Mailbox
(whole-slot replace, last-write-wins, no queuing); the concrete
`scan_buffer.py` is not in the provided sources. -/
def publish (_m : Option MailboxSlot) (badge : String) (now : Nat) :
    Option MailboxSlot :=
  some ⟨badge, now⟩

/-- Modelled from the spec: `consume()` on the Enrollment Mailbox —
destructive read returning the slot and clearing it; a slot whose age
exceeds the TTL is treated as empty and cleared. Returns the read result
and the new mailbox state. -/
def consume (m : Option MailboxSlot) (now ttl : Nat) :
    Option MailboxSlot × Option MailboxSlot :=
  match m with
  | none => (none, none)
  | some slot =>
      if now ≤ slot.detected_at + ttl then (some slot, none)
      else (none, none)

/-- A submission request from the edge to the ingestion service. -/
structure SubmitRequest where
  device_id : String
  api_key : String
  badge_id : String
  occurred_at : Nat
  idempotency_key : String
deriving DecidableEq

/-- Terminal rejection reason codes. -/
inductive ReasonCode
  | DEVICE_UNAUTHENTICATED
  | BADGE_REVOKED
  | BADGE_LOST
  | DUPLICATE_WITHIN_WINDOW
deriving DecidableEq

/-- Result of the ingestion submit operation. -/
inductive SubmitResult
  | event_created (e : CanonicalEvent)
  | enrollment_redirect
  | rejected (reason : ReasonCode)
deriving DecidableEq

/-- Modelled from the spec: device authentication against the device
registry (a list of device-id/api-key pairs). -/
def authenticate (registry : List (String × String))
    (device_id api_key : String) : Bool :=
  registry.contains (device_id, api_key)

/-- Look up the canonical event, if any, carrying a given idempotency key
(events are newest-first). -/
def findByKey (events : List CanonicalEvent) (k : String) :
    Option CanonicalEvent :=
  events.find? fun e => e.idempotency_key = k

/-- Number of canonical events carrying a given idempotency key. -/
def keyCount (events : List CanonicalEvent) (k : String) : Nat :=
  (events.filter fun e => e.idempotency_key = k).length

/-- Look up the badge binding for a badge id. -/
def lookupBinding (binds : List BadgeBinding) (badge : String) :
    Option BadgeBinding :=
  binds.find? fun b => b.badge_id = badge

/-- The subject's most recent canonical event, in ingestion order. -/
def lastEventOf (events : List CanonicalEvent) (subj : String) :
    Option CanonicalEvent :=
  events.find? fun e => e.subject_id = subj

/-- Calendar day of a timestamp (seconds since epoch, 86400 s days). -/
def dayOf (t : Nat) : Nat := t / 86400

/-- The subject's most recent canonical event on the same day as `t`. -/
def lastEventOfToday (events : List CanonicalEvent) (subj : String)
    (t : Nat) : Option CanonicalEvent :=
  events.find? fun e => e.subject_id = subj && dayOf e.occurred_at == dayOf t

/-- Modelled from the spec: direction inference — no prior event today or
most recent event today is a DEPARTURE yields ARRIVAL; most recent is an
ARRIVAL yields DEPARTURE. A two-state toggle per subject per day. -/
def inferDirection (events : List CanonicalEvent) (subj : String)
    (t : Nat) : Direction :=
  match lastEventOfToday events subj t with
  | none => .ARRIVAL
  | some prev =>
      match prev.direction with
      | .ARRIVAL => .DEPARTURE
      | .DEPARTURE => .ARRIVAL

/-- The canonical event persisted for an accepted submission. -/
def newEventOf (req : SubmitRequest) (subj : String) (s : ServerState) :
    CanonicalEvent :=
  ⟨s.next_event_id, subj, req.badge_id,
   inferDirection s.events subj req.occurred_at,
   req.occurred_at, req.device_id, req.idempotency_key⟩

/-- Persist the canonical event for an accepted submission and return it. -/
def acceptEvent (req : SubmitRequest) (subj : String) (s : ServerState) :
    SubmitResult × ServerState :=
  (.event_created (newEventOf req subj s),
   { s with events := newEventOf req subj s :: s.events,
            next_event_id := s.next_event_id + 1 })

/-- Modelled from the spec: anti-passback check (steps 4–6 of the
ingestion algorithm) for an ACTIVE, bound badge: reject as a duplicate
when the submitted time is within the window after the subject's most
recent event, otherwise infer direction and persist. -/
def processActive (window : Nat) (req : SubmitRequest) (subj : String)
    (s : ServerState) : SubmitResult × ServerState :=
  match lastEventOf s.events subj with
  | some last =>
      if req.occurred_at < last.occurred_at + window then
        (.rejected .DUPLICATE_WITHIN_WINDOW, s)
      else acceptEvent req subj s
  | none => acceptEvent req subj s

/-- Modelled from the spec: badge-binding routing (step 3): REVOKED and
LOST are terminal rejections; UNBOUND or no bound subject publishes the
badge into the enrollment mailbox and returns a redirect; ACTIVE with a
bound subject continues to the anti-passback and direction steps. -/
def routeBinding (window now : Nat) (req : SubmitRequest)
    (bOpt : Option BadgeBinding) (s : ServerState) :
    SubmitResult × ServerState :=
  match bOpt with
  | none =>
      (.enrollment_redirect,
       { s with mailbox := publish s.mailbox req.badge_id now })
  | some b =>
      match b.state with
      | .REVOKED => (.rejected .BADGE_REVOKED, s)
      | .LOST => (.rejected .BADGE_LOST, s)
      | .UNBOUND =>
          (.enrollment_redirect,
           { s with mailbox := publish s.mailbox req.badge_id now })
      | .ACTIVE =>
          match b.subject_id with
          | none =>
              (.enrollment_redirect,
               { s with mailbox := publish s.mailbox req.badge_id now })
          | some subj => processActive window req subj s

/-- Modelled from the spec: the ingestion submit operation, in order —
authenticate, idempotency check, badge-binding routing, anti-passback,
direction inference, persist. The backend service source is not among the
provided files; this follows the spec's §4.4 algorithm. -/
def submit (registry : List (String × String)) (binds : List BadgeBinding)
    (window now : Nat) (req : SubmitRequest) (s : ServerState) :
    SubmitResult × ServerState :=
  if authenticate registry req.device_id req.api_key then
    match findByKey s.events req.idempotency_key with
    | some e => (.event_created e, s)
    | none => routeBinding window now req (lookupBinding binds req.badge_id) s
  else (.rejected .DEVICE_UNAUTHENTICATED, s)

/-- Modelled from the spec: `enqueue` on the Durable Buffer — persists the
record with `delivery_state = PENDING` before returning (the returned list
is the durable on-disk state); the client-generated local id is passed in. -/
def enqueue (b : List CaptureRecord) (lid badge dev : String) (t : Nat) :
    List CaptureRecord :=
  b ++ [⟨lid, badge, dev, t, .PENDING, 0, none⟩]

/-- Modelled from the spec: process restart — the Durable Buffer is the
persisted state, so restart reloads it unchanged. -/
def restart (b : List CaptureRecord) : List CaptureRecord := b

/-- A record eligible for (re)submission: PENDING or FAILED. -/
def isEligible (r : CaptureRecord) : Bool :=
  r.delivery_state = DeliveryState.PENDING ||
  r.delivery_state = DeliveryState.FAILED

/-- The records a `list_pending` pass can return, before the limit. -/
def eligibleRecords (b : List CaptureRecord) : List CaptureRecord :=
  b.filter isEligible

/-- Modelled from the spec: `list_pending(limit)` — PENDING or FAILED
records, oldest first, up to `limit`. -/
def list_pending (b : List CaptureRecord) (limit : Nat) :
    List CaptureRecord :=
  (eligibleRecords b).take limit

/-- Modelled from the spec: `mark_synced(local_id)` — transitions the
record to SYNCED; idempotent, a no-op on an already-synced record. -/
def mark_synced (b : List CaptureRecord) (lid : String) :
    List CaptureRecord :=
  b.map fun r =>
    if r.local_id = lid then { r with delivery_state := .SYNCED } else r

/-- Modelled from the spec: `mark_failed(local_id)` — increments the
attempt counter, records the attempt time, moves to FAILED. -/
def mark_failed (b : List CaptureRecord) (lid : String) (now : Nat) :
    List CaptureRecord :=
  b.map fun r =>
    if r.local_id = lid then
      { r with delivery_state := .FAILED,
               attempt_count := r.attempt_count + 1,
               last_attempt_at := some now }
    else r

/-- Transport-level outcome of one submission as seen by the Sync
Engine: a 2xx response carrying the server result, a terminal 4xx
rejection, or a retryable failure (5xx, network error, timeout). -/
inductive TransportResult
  | ok (r : SubmitResult)
  | clientError (reason : ReasonCode)
  | serverError
  | networkError
  | timeout
deriving DecidableEq

/-- Retryable transport outcomes: network error, 5xx, timeout. -/
def isRetryable : TransportResult → Bool
  | .serverError => true
  | .networkError => true
  | .timeout => true
  | _ => false

/-- Sync Engine state: the durable buffer, the engine-wide backoff delay,
and the operator-visible rejection log. -/
structure EngineState where
  buffer : List CaptureRecord
  backoff_delay : Nat
  op_log : List (String × ReasonCode)
deriving DecidableEq

/-- Exponential backoff bounded by a maximum delay. -/
def backoffNext (d maxDelay : Nat) : Nat := min (d * 2) maxDelay

/-- Modelled from the spec: the Sync Engine's handling of one
submission outcome — success (any 2xx, including redirects and
already-processed) marks the record synced; a non-retryable 4xx marks it
synced and logs the rejection for the operator; a retryable failure marks
it failed and grows the engine-wide backoff up to the cap. -/
def handleSubmitResult (st : EngineState) (lid : String)
    (tr : TransportResult) (now maxDelay : Nat) : EngineState :=
  match tr with
  | .ok _ => { st with buffer := mark_synced st.buffer lid }
  | .clientError rc =>
      { st with buffer := mark_synced st.buffer lid,
                op_log := (lid, rc) :: st.op_log }
  | _ =>
      { st with buffer := mark_failed st.buffer lid now,
                backoff_delay := backoffNext st.backoff_delay maxDelay }

/-- The anti-passback check passes: no prior event for the subject, or
the submitted time is at least the window after the most recent one. -/
def passbackOk (events : List CanonicalEvent) (subj : String)
    (occ window : Nat) : Bool :=
  match lastEventOf events subj with
  | none => true
  | some last => last.occurred_at + window ≤ occ

/-- Test fixture: a device registry with one registered device. -/
def regD : List (String × String) := [("dev1", "key1")]

/-- Test fixture: badge 04A2B3 bound to subject S1, ACTIVE. -/
def bindsD : List BadgeBinding :=
  [⟨"04A2B3", some "S1", BadgeState.ACTIVE⟩]

/-- Test fixture: badge 04NEW with no subject, UNBOUND. -/
def bindsU : List BadgeBinding := [⟨"04NEW", none, BadgeState.UNBOUND⟩]

/-- Test fixture: empty server state. -/
def s0D : ServerState := ⟨[], none, 0⟩

/-- Test fixture: one canonical ARRIVAL event at time 1000 for S1. -/
def e1D : CanonicalEvent :=
  ⟨0, "S1", "04A2B3", Direction.ARRIVAL, 1000, "dev1", "k1"⟩

/-- Test fixture: server state holding just `e1D`. -/
def s1D : ServerState := ⟨[e1D], none, 1⟩

/-- Test fixture: a request from the registered device for badge 04A2B3
at time `t` with idempotency key `k`. -/
def reqD (t : Nat) (k : String) : SubmitRequest :=
  ⟨"dev1", "key1", "04A2B3", t, k⟩

/-- Test fixture: first tap of the direction-toggle scenario. -/
def reqA : SubmitRequest := reqD 1000 "ka"

/-- Test fixture: state after the first toggle-scenario tap. -/
def sA : ServerState := (submit regD bindsD 60 0 reqA s0D).2

/-- Test fixture: second tap of the direction-toggle scenario. -/
def reqB : SubmitRequest := reqD 2000 "kb"

/-- Test fixture: state after the second toggle-scenario tap. -/
def sB : ServerState := (submit regD bindsD 60 0 reqB sA).2

/-- Test fixture: third tap of the direction-toggle scenario. -/
def reqC : SubmitRequest := reqD 3000 "kc"

end NFCCore

namespace Frontend

/-- Browser localStorage, as key/value pairs. -/
def LocalStorage := List (String × String)

/-- `localStorage.removeItem(key)`. -/
def removeItem (s : LocalStorage) (k : String) : LocalStorage :=
  s.filter fun p => p.1 ≠ k

/-- `localStorage.getItem(key)`. -/
def getItem (s : LocalStorage) (k : String) : Option String :=
  (s.find? fun p => p.1 = k).map Prod.snd

/-- AuthContext state: localStorage plus the in-memory `user` value
(the serialized user object; `null` is `none`). -/
structure AuthState where
  storage : LocalStorage
  user : Option String

/-- Outcome of the server-side logout POST as seen by the client:
it either resolves or throws. -/
inductive ApiOutcome
  | success
  | failure

/-- The try-block of `logout` in AuthContext.tsx: read the refresh token,
and if present POST it to the logout endpoint, which may throw. -/
def logoutAttempt (st : AuthState) (api : ApiOutcome) :
    Except Unit AuthState :=
  match getItem st.storage "refresh_token" with
  | some _ =>
      match api with
      | .success => .ok st
      | .failure => .error ()
  | none => .ok st

/-- The finally-block of `logout`: remove the three auth keys from
localStorage and reset the in-memory user to null. -/
def clearLocalAuth (st : AuthState) : AuthState :=
  { storage :=
      removeItem (removeItem (removeItem st.storage "access_token")
        "refresh_token") "user",
    user := none }

/-- `logout` from AuthContext.tsx: try the server logout, catch any
error (logging only), and in the finally-block clear local auth state
regardless of the API outcome. -/
def logout (st : AuthState) (api : ApiOutcome) : AuthState :=
  match logoutAttempt st api with
  | .ok s => clearLocalAuth s
  | .error _ => clearLocalAuth st

/-- A live attendance event as rendered by the dashboard feed. -/
structure LiveEvent where
  event_type : String
  employee_name : String
  timestamp : String
deriving DecidableEq

/-- A parsed WebSocket message as handled by DashboardPage's
`ws.onmessage`: an attendance event, a ping, or anything else. -/
inductive WsMessage
  | attendance_event (e : LiveEvent)
  | ping
  | other
deriving DecidableEq

/-- The `ws.onmessage` state update on the live events list: an
attendance event is prepended and the list truncated to the 20 most
recent; other messages leave the list unchanged. -/
def onMessage (events : List LiveEvent) (m : WsMessage) :
    List LiveEvent :=
  match m with
  | .attendance_event e => (e :: events).take 20
  | .ping => events
  | .other => events

/-- The live events list after a sequence of received messages, starting
from the initial empty list. -/
def processMessages (msgs : List WsMessage) : List LiveEvent :=
  msgs.foldl onMessage []

end Frontend


namespace NFCCore

/-- C7: consume on the Enrollment Mailbox is a destructive, TTL-guarded
read: an occupied slot whose age since detected_at is within the TTL is
returned and the slot atomically cleared; a slot older than the TTL
yields empty and the stale slot is cleared; the cleared slot then yields
empty, so exactly one consumer sees a given slot value. -/
theorem consume_ttl_destructive (slot : MailboxSlot) (now ttl : Nat) :
    (now ≤ slot.detected_at + ttl →
      consume (some slot) now ttl = (some slot, none))
    ∧ (slot.detected_at + ttl < now →
      consume (some slot) now ttl = (none, none))
    ∧ (consume (some slot) now ttl).2 = none
    ∧ consume (none : Option MailboxSlot) now ttl = (none, none) := by
  refine ⟨?_, ?_, ?_, rfl⟩
  · intro h
    simp [consume, h]
  · intro h
    simp [consume, Nat.not_le_of_lt h]
  · by_cases h : now ≤ slot.detected_at + ttl <;> simp [consume, h]

/-- C7 witness: a slot published at T = 100 is returned by consume at
T + 30 and is empty at T + 61 with the 60-second TTL. -/
theorem consume_ttl_destructive_witness :
    consume (some ⟨"04A2B3", 100⟩) 130 60 = (some ⟨"04A2B3", 100⟩, none)
    ∧ consume (some ⟨"04A2B3", 100⟩) 161 60 = (none, none) :=
  ⟨(consume_ttl_destructive ⟨"04A2B3", 100⟩ 130 60).1 (by decide),
   (consume_ttl_destructive ⟨"04A2B3", 100⟩ 161 60).2.1 (by decide)⟩

/-- C8: publish on the Enrollment Mailbox is a whole-slot replace with
last-write-wins semantics and no queuing: after publishing badge A and
then badge B with no intervening consume, the slot holds exactly B and
only B is retrievable. -/
theorem publish_last_write_wins (m : Option MailboxSlot) (a bdg : String)
    (t1 t2 now ttl : Nat) (h : now ≤ t2 + ttl) :
    publish (publish m a t1) bdg t2 = some ⟨bdg, t2⟩
    ∧ consume (publish (publish m a t1) bdg t2) now ttl
        = (some ⟨bdg, t2⟩, none) := by
  refine ⟨rfl, ?_⟩
  simp [publish, consume, h]

/-- C8 witness: publishing badge A at 10 then badge B at 20 leaves only
B retrievable. -/
theorem publish_last_write_wins_witness :
    publish (publish none "A" 10) "B" 20 = some ⟨"B", 20⟩
    ∧ consume (publish (publish none "A" 10) "B" 20) 25 60
        = (some ⟨"B", 20⟩, none) :=
  publish_last_write_wins none "A" "B" 10 20 25 60 (by decide)

end NFCCore

namespace Frontend

/-- Removing a key makes a subsequent lookup of that key miss. -/
theorem getItem_removeItem_self (s : LocalStorage) (k : String) :
    getItem (removeItem s k) k = none := by
  induction s with
  | nil => rfl
  | cons p t ih =>
      by_cases h : p.1 = k
      · have hdrop : removeItem (p :: t) k = removeItem t k := by
          simp [removeItem, List.filter_cons, h]
        rw [hdrop]
        exact ih
      · have hkeep : removeItem (p :: t) k = p :: removeItem t k := by
          simp [removeItem, List.filter_cons, h]
        rw [hkeep]
        simp only [getItem]
        rw [List.find?_cons_of_neg _ (by simpa using h)]
        exact ih

/-- Removing one key leaves lookups of a different key unchanged. -/
theorem getItem_removeItem_ne (s : LocalStorage) (k k2 : String)
    (h : k ≠ k2) : getItem (removeItem s k2) k = getItem s k := by
  induction s with
  | nil => rfl
  | cons p t ih =>
      by_cases hp : p.1 = k2
      · have hpk : ¬ (p.1 = k) := by
          intro hk
          exact h (hk ▸ hp)
        have hdrop : removeItem (p :: t) k2 = removeItem t k2 := by
          simp [removeItem, List.filter_cons, hp]
        rw [hdrop, ih]
        simp only [getItem]
        rw [List.find?_cons_of_neg _ (by simpa using hpk)]
      · have hkeep : removeItem (p :: t) k2 = p :: removeItem t k2 := by
          simp [removeItem, List.filter_cons, hp]
        rw [hkeep]
        by_cases hk : p.1 = k
        · simp only [getItem]
          rw [List.find?_cons_of_pos _ (by simpa using hk),
            List.find?_cons_of_pos _ (by simpa using hk)]
        · simp only [getItem]
          rw [List.find?_cons_of_neg _ (by simpa using hk),
            List.find?_cons_of_neg _ (by simpa using hk)]
          exact ih

/-- The logout try/catch always reaches the same finally-block state. -/
theorem logout_eq_clear (st : AuthState) (api : ApiOutcome) :
    logout st api = clearLocalAuth st := by
  unfold logout logoutAttempt
  cases hrt : getItem st.storage "refresh_token" with
  | none => rfl
  | some v => cases api <;> rfl

/-- C9: logout in the frontend AuthContext always removes access_token,
refresh_token, and user from localStorage and resets the in-memory user
to null, even when the server-side logout request fails or throws. -/
theorem logout_clears_local_state (st : AuthState) (api : ApiOutcome) :
    getItem (logout st api).storage "access_token" = none
    ∧ getItem (logout st api).storage "refresh_token" = none
    ∧ getItem (logout st api).storage "user" = none
    ∧ (logout st api).user = none := by
  rw [logout_eq_clear]
  unfold clearLocalAuth
  refine ⟨?_, ?_, ?_, rfl⟩
  · rw [getItem_removeItem_ne _ _ _ (by decide),
      getItem_removeItem_ne _ _ _ (by decide),
      getItem_removeItem_self]
  · rw [getItem_removeItem_ne _ _ _ (by decide), getItem_removeItem_self]
  · rw [getItem_removeItem_self]

/-- One message keeps the live events list within the 20-event bound. -/
theorem onMessage_length_le (evs : List LiveEvent) (m : WsMessage)
    (h : evs.length ≤ 20) : (onMessage evs m).length ≤ 20 := by
  cases m with
  | attendance_event e =>
      simp only [onMessage, List.length_take]
      omega
  | ping => exact h
  | other => exact h

/-- Folding any message sequence keeps the list within the bound. -/
theorem foldl_onMessage_length_le (msgs : List WsMessage) :
    ∀ evs : List LiveEvent, evs.length ≤ 20 →
      (msgs.foldl onMessage evs).length ≤ 20 := by
  induction msgs with
  | nil =>
      intro evs h
      simpa using h
  | cons m t ih =>
      intro evs h
      simpa [List.foldl_cons] using ih (onMessage evs m)
        (onMessage_length_le evs m h)

/-- C10: every attendance_event WebSocket message prepends the new event
and truncates to the 20 most recent, so after any sequence of received
messages the live events list holds at most 20 events, and right after an
attendance_event message the newest event is first. -/
theorem live_feed_bounded_newest_first (msgs : List WsMessage) :
    (processMessages msgs).length ≤ 20
    ∧ ∀ (evs : List LiveEvent) (e : LiveEvent),
        onMessage evs (WsMessage.attendance_event e) = (e :: evs).take 20
        ∧ (onMessage evs (WsMessage.attendance_event e)).head? = some e := by
  refine ⟨foldl_onMessage_length_le msgs [] (by simp), ?_⟩
  intro evs e
  exact ⟨rfl, rfl⟩

end Frontend

namespace NFCCore

/-- A failed record stays among the eligible (retryable) records. -/
theorem eligible_mark_failed (b : List CaptureRecord) (lid : String)
    (now : Nat) (r : CaptureRecord) (hr : r ∈ b) (hid : r.local_id = lid) :
    ∃ r2 ∈ eligibleRecords (mark_failed b lid now), r2.local_id = lid := by
  refine ⟨⟨r.local_id, r.badge_id, r.device_id, r.captured_at,
    DeliveryState.FAILED, r.attempt_count + 1, some now⟩, ?_, hid⟩
  simp only [eligibleRecords]
  apply List.mem_filter.mpr
  constructor
  · simp only [mark_failed]
    exact List.mem_map.mpr ⟨r, hr, by simp [hid]⟩
  · rfl

/-- After mark_synced, no eligible record carries the synced local id. -/
theorem not_eligible_mark_synced (b : List CaptureRecord) (lid : String)
    (r2 : CaptureRecord) (h : r2 ∈ eligibleRecords (mark_synced b lid)) :
    r2.local_id ≠ lid := by
  simp only [eligibleRecords] at h
  have hmem := (List.mem_filter.mp h).1
  have helig := (List.mem_filter.mp h).2
  simp only [mark_synced] at hmem
  obtain ⟨r, hr, heq⟩ := List.mem_map.mp hmem
  by_cases h0 : r.local_id = lid
  · simp only [h0, if_pos] at heq
    rw [← heq] at helig
    simp [isEligible] at helig
  · simp only [h0, if_neg, ite_false] at heq
    rw [← heq]
    exact h0

/-- C5: the Sync Engine classifies every submission outcome into two
tiers: a retryable failure (network error, 5xx, timeout) marks the record
failed, keeps it eligible for resubmission, and doubles the engine-wide
backoff bounded by the maximum delay; a non-retryable 4xx rejection marks
the record synced, excludes it from every later list_pending pass, and
pushes the rejection onto the operator-visible log; every other outcome
is also marked synced, so the classification is exhaustive. -/
theorem sync_engine_two_tier (st : EngineState) (lid : String)
    (now maxDelay : Nat) :
    (∀ tr : TransportResult, isRetryable tr = true →
        handleSubmitResult st lid tr now maxDelay
          = { st with buffer := mark_failed st.buffer lid now,
                      backoff_delay := min (st.backoff_delay * 2) maxDelay }
        ∧ (handleSubmitResult st lid tr now maxDelay).backoff_delay
            ≤ maxDelay
        ∧ (∀ r ∈ st.buffer, r.local_id = lid →
            ∃ r2 ∈ eligibleRecords
                (handleSubmitResult st lid tr now maxDelay).buffer,
              r2.local_id = lid))
    ∧ (∀ rc : ReasonCode,
        handleSubmitResult st lid (TransportResult.clientError rc) now
            maxDelay
          = { st with buffer := mark_synced st.buffer lid,
                      op_log := (lid, rc) :: st.op_log }
        ∧ ∀ (limit : Nat) (r2 : CaptureRecord),
            r2 ∈ list_pending
              (handleSubmitResult st lid (TransportResult.clientError rc)
                now maxDelay).buffer limit →
            r2.local_id ≠ lid)
    ∧ (∀ tr : TransportResult, isRetryable tr = true ∨
        (handleSubmitResult st lid tr now maxDelay).buffer
          = mark_synced st.buffer lid) := by
  refine ⟨?_, ?_, ?_⟩
  · intro tr htr
    cases tr with
    | ok r => simp [isRetryable] at htr
    | clientError rc => simp [isRetryable] at htr
    | serverError =>
        exact ⟨rfl, Nat.min_le_right _ _,
          fun r hr hid => eligible_mark_failed st.buffer lid now r hr hid⟩
    | networkError =>
        exact ⟨rfl, Nat.min_le_right _ _,
          fun r hr hid => eligible_mark_failed st.buffer lid now r hr hid⟩
    | timeout =>
        exact ⟨rfl, Nat.min_le_right _ _,
          fun r hr hid => eligible_mark_failed st.buffer lid now r hr hid⟩
  · intro rc
    refine ⟨rfl, ?_⟩
    intro limit r2 h
    simp only [handleSubmitResult, list_pending] at h
    exact not_eligible_mark_synced st.buffer lid r2
      (List.take_subset limit _ h)
  · intro tr
    cases tr with
    | ok r => exact Or.inr rfl
    | clientError rc => exact Or.inr rfl
    | serverError => exact Or.inl rfl
    | networkError => exact Or.inl rfl
    | timeout => exact Or.inl rfl

/-- C5 witness: concrete engine state with one pending record; a network
error keeps the record eligible, and a 4xx revoked-badge rejection lands
in the operator log. -/
theorem sync_engine_two_tier_witness :
    (handleSubmitResult
        ⟨[⟨"L1", "04A2B3", "dev1", 0, DeliveryState.PENDING, 0, none⟩],
         5, []⟩ "L1" TransportResult.networkError 100 30).backoff_delay
      ≤ 30
    ∧ (handleSubmitResult
        ⟨[⟨"L1", "04A2B3", "dev1", 0, DeliveryState.PENDING, 0, none⟩],
         5, []⟩ "L1" (TransportResult.clientError ReasonCode.BADGE_REVOKED)
        100 30).op_log
      = [("L1", ReasonCode.BADGE_REVOKED)] :=
  ⟨((sync_engine_two_tier
      ⟨[⟨"L1", "04A2B3", "dev1", 0, DeliveryState.PENDING, 0, none⟩],
       5, []⟩ "L1" 100 30).1 TransportResult.networkError rfl).2.1,
   by
    have h := ((sync_engine_two_tier
      ⟨[⟨"L1", "04A2B3", "dev1", 0, DeliveryState.PENDING, 0, none⟩],
       5, []⟩ "L1" 100 30).2.1 ReasonCode.BADGE_REVOKED).1
    rw [h]⟩

/-- C6: the Durable Buffer persists every enqueued record as PENDING
before enqueue returns, the record survives a process restart still
PENDING, a later mark_synced takes it to SYNCED, and no buffer operation
ever deletes a record: mark_synced and mark_failed preserve the list of
local ids exactly. -/
theorem durable_buffer_crash_safe (b : List CaptureRecord)
    (lid badge dev : String) (t : Nat)
    (hfresh : ∀ r ∈ b, r.local_id ≠ lid) :
    (∃ r ∈ enqueue b lid badge dev t,
        r.local_id = lid ∧ r.delivery_state = DeliveryState.PENDING)
    ∧ restart (enqueue b lid badge dev t) = enqueue b lid badge dev t
    ∧ (∀ r ∈ restart (enqueue b lid badge dev t), r.local_id = lid →
        r.delivery_state = DeliveryState.PENDING)
    ∧ (∀ r ∈ mark_synced (restart (enqueue b lid badge dev t)) lid,
        r.local_id = lid → r.delivery_state = DeliveryState.SYNCED)
    ∧ (∀ (b2 : List CaptureRecord) (lid2 : String) (now2 : Nat),
        (mark_synced b2 lid2).map CaptureRecord.local_id
            = b2.map CaptureRecord.local_id
        ∧ (mark_failed b2 lid2 now2).map CaptureRecord.local_id
            = b2.map CaptureRecord.local_id) := by
  refine ⟨?_, rfl, ?_, ?_, ?_⟩
  · exact ⟨⟨lid, badge, dev, t, .PENDING, 0, none⟩, by simp [enqueue],
      rfl, rfl⟩
  · intro r hr hid
    simp only [restart, enqueue] at hr
    rcases List.mem_append.mp hr with hmem | hmem
    · exact absurd hid (hfresh r hmem)
    · have : r = ⟨lid, badge, dev, t, .PENDING, 0, none⟩ := by
        simpa using hmem
      rw [this]
  · intro r hr hid
    simp only [restart, mark_synced] at hr
    obtain ⟨r0, hr0, heq⟩ := List.mem_map.mp hr
    by_cases h0 : r0.local_id = lid
    · simp only [h0, if_pos] at heq
      rw [← heq]
    · simp only [h0, if_neg, ite_false] at heq
      rw [← heq] at hid
      exact absurd hid h0
  · intro b2 lid2 now2
    constructor
    · simp only [mark_synced, List.map_map]
      apply List.map_congr_left
      intro r hr
      by_cases h : r.local_id = lid2 <;> simp [h]
    · simp only [mark_failed, List.map_map]
      apply List.map_congr_left
      intro r hr
      by_cases h : r.local_id = lid2 <;> simp [h]

/-- C6 witness: a record enqueued into the empty buffer is PENDING, and
still PENDING after a restart. -/
theorem durable_buffer_crash_safe_witness :
    (∃ r ∈ enqueue [] "L1" "04A2B3" "dev1" 100,
        r.local_id = "L1" ∧ r.delivery_state = DeliveryState.PENDING)
    ∧ (∀ r ∈ restart (enqueue [] "L1" "04A2B3" "dev1" 100),
        r.local_id = "L1" → r.delivery_state = DeliveryState.PENDING) := by
  have h := durable_buffer_crash_safe [] "L1" "04A2B3" "dev1" 100
    (fun r hr => absurd hr (List.not_mem_nil r))
  exact ⟨h.1, h.2.2.1⟩

end NFCCore

namespace NFCCore

/-- When a canonical event already carries the submitted idempotency key
and the device authenticates, submit returns that event and changes
nothing. -/
theorem submit_of_found (registry : List (String × String))
    (binds : List BadgeBinding) (window now : Nat) (req : SubmitRequest)
    (s : ServerState) (e : CanonicalEvent)
    (hauth : authenticate registry req.device_id req.api_key = true)
    (hfound : findByKey s.events req.idempotency_key = some e) :
    submit registry binds window now req s
      = (SubmitResult.event_created e, s) := by
  unfold submit
  simp [hauth, hfound]

/-- With authentication passed, a fresh idempotency key, and an ACTIVE
bound badge, submit reduces to the anti-passback/persist step. -/
theorem submit_active_eq (registry : List (String × String))
    (binds : List BadgeBinding) (window now : Nat) (req : SubmitRequest)
    (s : ServerState) (b : BadgeBinding) (subj : String)
    (hauth : authenticate registry req.device_id req.api_key = true)
    (hfresh : findByKey s.events req.idempotency_key = none)
    (hbind : lookupBinding binds req.badge_id = some b)
    (hstate : b.state = BadgeState.ACTIVE)
    (hsubj : b.subject_id = some subj) :
    submit registry binds window now req s
      = processActive window req subj s := by
  unfold submit routeBinding
  simp [hauth, hfresh, hbind, hstate, hsubj]

/-- Exhaustive case analysis of submit: a rejection leaving the state
unchanged, an idempotency hit leaving the state unchanged, an enrollment
redirect touching only the mailbox, or the acceptance of a new event. -/
theorem submit_cases (registry : List (String × String))
    (binds : List BadgeBinding) (window now : Nat) (req : SubmitRequest)
    (s : ServerState) :
    (∃ rc, submit registry binds window now req s
        = (SubmitResult.rejected rc, s))
    ∨ (∃ e, findByKey s.events req.idempotency_key = some e
        ∧ submit registry binds window now req s
            = (SubmitResult.event_created e, s))
    ∨ (submit registry binds window now req s
        = (SubmitResult.enrollment_redirect,
           { s with mailbox := some ⟨req.badge_id, now⟩ }))
    ∨ (findByKey s.events req.idempotency_key = none
       ∧ ∃ subj, submit registry binds window now req s
            = acceptEvent req subj s) := by
  cases hA : authenticate registry req.device_id req.api_key with
  | false =>
      left
      exact ⟨ReasonCode.DEVICE_UNAUTHENTICATED, by unfold submit; simp [hA]⟩
  | true =>
      cases hF : findByKey s.events req.idempotency_key with
      | some e =>
          right; left
          exact ⟨e, rfl, by unfold submit; simp [hA, hF]⟩
      | none =>
          have hsub : submit registry binds window now req s
              = routeBinding window now req
                  (lookupBinding binds req.badge_id) s := by
            unfold submit
            simp [hA, hF]
          cases hB : lookupBinding binds req.badge_id with
          | none =>
              right; right; left
              rw [hsub, hB]
              unfold routeBinding
              simp [publish]
          | some b =>
              cases hst : b.state with
              | REVOKED =>
                  left
                  exact ⟨ReasonCode.BADGE_REVOKED,
                    by rw [hsub, hB]; unfold routeBinding; simp [hst]⟩
              | LOST =>
                  left
                  exact ⟨ReasonCode.BADGE_LOST,
                    by rw [hsub, hB]; unfold routeBinding; simp [hst]⟩
              | UNBOUND =>
                  right; right; left
                  rw [hsub, hB]
                  unfold routeBinding
                  simp [hst, publish]
              | ACTIVE =>
                  cases hsb : b.subject_id with
                  | none =>
                      right; right; left
                      rw [hsub, hB]
                      unfold routeBinding
                      simp [hst, hsb, publish]
                  | some subj =>
                      have hpa : submit registry binds window now req s
                          = processActive window req subj s := by
                        rw [hsub, hB]
                        unfold routeBinding
                        simp [hst, hsb]
                      cases hL : lastEventOf s.events subj with
                      | none =>
                          right; right; right
                          exact ⟨rfl, subj,
                            by rw [hpa]; unfold processActive; simp [hL]⟩
                      | some last =>
                          by_cases hw :
                              req.occurred_at < last.occurred_at + window
                          · left
                            exact ⟨ReasonCode.DUPLICATE_WITHIN_WINDOW,
                              by rw [hpa]; unfold processActive
                                 simp [hL, hw]⟩
                          · right; right; right
                            exact ⟨rfl, subj,
                              by rw [hpa]; unfold processActive
                                 simp [hL, hw]⟩

/-- A submission with a different idempotency key never disturbs the
event recorded under an existing key. -/
theorem findByKey_submit_preserved (registry : List (String × String))
    (binds : List BadgeBinding) (window now : Nat) (req : SubmitRequest)
    (s : ServerState) (k : String) (e : CanonicalEvent)
    (hfound : findByKey s.events k = some e)
    (hne : req.idempotency_key ≠ k) :
    findByKey (submit registry binds window now req s).2.events k
      = some e := by
  rcases submit_cases registry binds window now req s with
    ⟨rc, hE⟩ | ⟨e0, h0, hE⟩ | hE | ⟨h0, subj, hE⟩
  · rw [hE]; exact hfound
  · rw [hE]; exact hfound
  · rw [hE]; exact hfound
  · rw [hE]
    show findByKey (acceptEvent req subj s).2.events k = some e
    simp only [acceptEvent]
    simp only [findByKey] at hfound ⊢
    rw [List.find?_cons_of_neg _ (by simp [newEventOf, hne])]
    exact hfound

/-- Submit never takes the count of events for a key above one. -/
theorem keyCount_submit_le (registry : List (String × String))
    (binds : List BadgeBinding) (window now : Nat) (req : SubmitRequest)
    (s : ServerState) (k : String) (h : keyCount s.events k ≤ 1) :
    keyCount (submit registry binds window now req s).2.events k ≤ 1 := by
  rcases submit_cases registry binds window now req s with
    ⟨rc, hE⟩ | ⟨e0, h0, hE⟩ | hE | ⟨h0, subj, hE⟩
  · rw [hE]; exact h
  · rw [hE]; exact h
  · rw [hE]; exact h
  · rw [hE]
    show keyCount (acceptEvent req subj s).2.events k ≤ 1
    simp only [acceptEvent]
    by_cases hk : req.idempotency_key = k
    · have hnone : findByKey s.events k = none := hk ▸ h0
      simp only [findByKey] at hnone
      have hnil : (s.events.filter fun e2 => e2.idempotency_key = k)
          = [] := by
        rw [List.filter_eq_nil_iff]
        intro a ha
        exact List.find?_eq_none.mp hnone a ha
      unfold keyCount
      rw [List.filter_cons_of_pos (by simp [newEventOf, hk]), hnil]
      simp
    · unfold keyCount at h ⊢
      rw [List.filter_cons_of_neg (by simp [newEventOf, hk])]
      exact h

end NFCCore

namespace NFCCore

/-- C1: submission is idempotent per idempotency_key: once a first call
returns a created CanonicalEvent, a retry with the same key returns that
event unchanged and leaves the state untouched, the key still maps to at
most one event, any later retry against any state still holding the event
is a complete no-op returning the same result, and submissions under
other keys never disturb the recorded event. -/
theorem submit_idempotent_retry (registry : List (String × String))
    (binds : List BadgeBinding) (window now now2 : Nat)
    (req req2 : SubmitRequest) (s : ServerState) (e : CanonicalEvent)
    (hkey : req2.idempotency_key = req.idempotency_key)
    (hauth2 : authenticate registry req2.device_id req2.api_key = true)
    (hone : keyCount s.events req.idempotency_key ≤ 1)
    (h1 : (submit registry binds window now req s).1
        = SubmitResult.event_created e) :
    submit registry binds window now2 req2
        (submit registry binds window now req s).2
      = (SubmitResult.event_created e,
         (submit registry binds window now req s).2)
    ∧ keyCount (submit registry binds window now req s).2.events
        req.idempotency_key ≤ 1
    ∧ findByKey (submit registry binds window now req s).2.events
        req.idempotency_key = some e
    ∧ (∀ (registry2 : List (String × String)) (binds2 : List BadgeBinding)
        (window2 now3 : Nat) (req3 : SubmitRequest) (s2 : ServerState),
        req3.idempotency_key = req.idempotency_key →
        authenticate registry2 req3.device_id req3.api_key = true →
        findByKey s2.events req.idempotency_key = some e →
        submit registry2 binds2 window2 now3 req3 s2
          = (SubmitResult.event_created e, s2))
    ∧ (∀ (registry2 : List (String × String)) (binds2 : List BadgeBinding)
        (window2 now3 : Nat) (req3 : SubmitRequest) (s2 : ServerState),
        req3.idempotency_key ≠ req.idempotency_key →
        findByKey s2.events req.idempotency_key = some e →
        findByKey
            (submit registry2 binds2 window2 now3 req3 s2).2.events
            req.idempotency_key
          = some e) := by
  have hfound1 : findByKey
      (submit registry binds window now req s).2.events
      req.idempotency_key = some e := by
    rcases submit_cases registry binds window now req s with
      ⟨rc, hE⟩ | ⟨e0, h0, hE⟩ | hE | ⟨h0, subj, hE⟩
    · rw [hE] at h1
      simp at h1
    · rw [hE] at h1
      simp only at h1
      have he0 : e0 = e := by
        cases h1
        rfl
      rw [hE]
      rw [← he0]
      exact h0
    · rw [hE] at h1
      simp at h1
    · rw [hE] at h1
      have hnew : newEventOf req subj s = e := by
        simp only [acceptEvent] at h1
        cases h1
        rfl
      rw [hE]
      show findByKey (acceptEvent req subj s).2.events _ = some e
      simp only [acceptEvent, findByKey]
      rw [List.find?_cons_of_pos _ (by simp [newEventOf])]
      rw [hnew]
  refine ⟨?_,
    keyCount_submit_le registry binds window now req s
      req.idempotency_key hone,
    hfound1, ?_, ?_⟩
  · exact submit_of_found registry binds window now2 req2 _ e hauth2
      (by rw [hkey]; exact hfound1)
  · intro registry2 binds2 window2 now3 req3 s2 hk3 hauth3 hfound3
    exact submit_of_found registry2 binds2 window2 now3 req3 s2 e hauth3
      (by rw [hk3]; exact hfound3)
  · intro registry2 binds2 window2 now3 req3 s2 hne3 hfound3
    exact findByKey_submit_preserved registry2 binds2 window2 now3 req3
      s2 req.idempotency_key e hfound3 hne3

/-- C1 witness: after a first submission creates the event, resubmitting
the same idempotency key returns it unchanged and the state still holds
at most one event for the key. -/
theorem submit_idempotent_retry_witness :
    submit regD bindsD 60 5 (reqD 1000 "kx")
        (submit regD bindsD 60 0 (reqD 1000 "kx") s0D).2
      = (SubmitResult.event_created (newEventOf (reqD 1000 "kx") "S1" s0D),
         (submit regD bindsD 60 0 (reqD 1000 "kx") s0D).2)
    ∧ keyCount (submit regD bindsD 60 0 (reqD 1000 "kx") s0D).2.events
        "kx" ≤ 1 := by
  have h := submit_idempotent_retry regD bindsD 60 0 5 (reqD 1000 "kx")
    (reqD 1000 "kx") s0D (newEventOf (reqD 1000 "kx") "S1" s0D)
    rfl (by decide) (by decide) (by decide)
  exact ⟨h.1, h.2.1⟩

end NFCCore

namespace NFCCore

/-- C2: for an authenticated submission with a fresh key and an ACTIVE
bound badge, the ingestion service rejects it as a duplicate exactly when
the submitted occurred_at is less than the anti-passback window after the
subject's most recent canonical event; a duplicate rejection leaves the
state unchanged (no event created), and a tap at or past the window is
accepted and persisted. -/
theorem anti_passback_window (registry : List (String × String))
    (binds : List BadgeBinding) (window now : Nat) (req : SubmitRequest)
    (s : ServerState) (b : BadgeBinding) (subj : String)
    (last : CanonicalEvent)
    (hauth : authenticate registry req.device_id req.api_key = true)
    (hfresh : findByKey s.events req.idempotency_key = none)
    (hbind : lookupBinding binds req.badge_id = some b)
    (hstate : b.state = BadgeState.ACTIVE)
    (hsubj : b.subject_id = some subj)
    (hlast : lastEventOf s.events subj = some last) :
    ((submit registry binds window now req s).1
        = SubmitResult.rejected ReasonCode.DUPLICATE_WITHIN_WINDOW
      ↔ req.occurred_at < last.occurred_at + window)
    ∧ (req.occurred_at < last.occurred_at + window →
        submit registry binds window now req s
          = (SubmitResult.rejected ReasonCode.DUPLICATE_WITHIN_WINDOW, s))
    ∧ (last.occurred_at + window ≤ req.occurred_at →
        submit registry binds window now req s
          = acceptEvent req subj s) := by
  have hP := submit_active_eq registry binds window now req s b subj
    hauth hfresh hbind hstate hsubj
  have hdup : req.occurred_at < last.occurred_at + window →
      submit registry binds window now req s
        = (SubmitResult.rejected ReasonCode.DUPLICATE_WITHIN_WINDOW, s) := by
    intro hw
    rw [hP]
    unfold processActive
    simp [hlast, hw]
  have hacc : last.occurred_at + window ≤ req.occurred_at →
      submit registry binds window now req s = acceptEvent req subj s := by
    intro hge
    rw [hP]
    unfold processActive
    simp [hlast, Nat.not_lt.mpr hge]
  refine ⟨⟨?_, fun hw => by rw [hdup hw]⟩, hdup, hacc⟩
  intro hrej
  by_contra hw
  rw [hacc (Nat.not_lt.mp hw)] at hrej
  simp [acceptEvent] at hrej

/-- C2 witness: with subject S1's last event at t = 1000 and a 60-second
window, a second tap at t = 1010 (10 s later) is rejected as a duplicate
and creates nothing, while a tap at t = 1061 (61 s later) is accepted. -/
theorem anti_passback_window_witness :
    submit regD bindsD 60 0 (reqD 1010 "k2") s1D
      = (SubmitResult.rejected ReasonCode.DUPLICATE_WITHIN_WINDOW, s1D)
    ∧ submit regD bindsD 60 0 (reqD 1061 "k3") s1D
      = acceptEvent (reqD 1061 "k3") "S1" s1D := by
  have h10 := anti_passback_window regD bindsD 60 0 (reqD 1010 "k2") s1D
    ⟨"04A2B3", some "S1", BadgeState.ACTIVE⟩ "S1" e1D
    (by decide) (by decide) (by decide) rfl rfl (by decide)
  have h61 := anti_passback_window regD bindsD 60 0 (reqD 1061 "k3") s1D
    ⟨"04A2B3", some "S1", BadgeState.ACTIVE⟩ "S1" e1D
    (by decide) (by decide) (by decide) rfl rfl (by decide)
  exact ⟨h10.2.1 (by decide), h61.2.2 (by decide)⟩

/-- C3: an accepted submission's inferred direction is the two-state
toggle keyed per subject per day: ARRIVAL when the subject has no prior
event that day or the most recent event that day is a DEPARTURE, and
DEPARTURE when the most recent event that day is an ARRIVAL. -/
theorem direction_toggle (registry : List (String × String))
    (binds : List BadgeBinding) (window now : Nat) (req : SubmitRequest)
    (s : ServerState) (b : BadgeBinding) (subj : String)
    (hauth : authenticate registry req.device_id req.api_key = true)
    (hfresh : findByKey s.events req.idempotency_key = none)
    (hbind : lookupBinding binds req.badge_id = some b)
    (hstate : b.state = BadgeState.ACTIVE)
    (hsubj : b.subject_id = some subj)
    (hpass : passbackOk s.events subj req.occurred_at window = true) :
    (submit registry binds window now req s).1
      = SubmitResult.event_created (newEventOf req subj s)
    ∧ (newEventOf req subj s).direction
        = (match lastEventOfToday s.events subj req.occurred_at with
           | none => Direction.ARRIVAL
           | some prev =>
               match prev.direction with
               | Direction.ARRIVAL => Direction.DEPARTURE
               | Direction.DEPARTURE => Direction.ARRIVAL) := by
  constructor
  · have hP := submit_active_eq registry binds window now req s b subj
      hauth hfresh hbind hstate hsubj
    rw [hP]
    unfold processActive
    cases hL : lastEventOf s.events subj with
    | none => simp [hL, acceptEvent]
    | some last =>
        have hge : last.occurred_at + window ≤ req.occurred_at := by
          simp only [passbackOk, hL] at hpass
          exact of_decide_eq_true hpass
        simp [hL, Nat.not_lt.mpr hge, acceptEvent]
  · rfl

/-- C3 witness: for subject S1 with no events today, three valid taps in
sequence yield ARRIVAL, DEPARTURE, ARRIVAL. -/
theorem direction_toggle_witness :
    (submit regD bindsD 60 0 reqA s0D).1
      = SubmitResult.event_created (newEventOf reqA "S1" s0D)
    ∧ (newEventOf reqA "S1" s0D).direction = Direction.ARRIVAL
    ∧ (submit regD bindsD 60 0 reqB sA).1
      = SubmitResult.event_created (newEventOf reqB "S1" sA)
    ∧ (newEventOf reqB "S1" sA).direction = Direction.DEPARTURE
    ∧ (submit regD bindsD 60 0 reqC sB).1
      = SubmitResult.event_created (newEventOf reqC "S1" sB)
    ∧ (newEventOf reqC "S1" sB).direction = Direction.ARRIVAL := by
  refine ⟨?_, by decide, ?_, by decide, ?_, by decide⟩
  · exact (direction_toggle regD bindsD 60 0 reqA s0D
      ⟨"04A2B3", some "S1", BadgeState.ACTIVE⟩ "S1"
      (by decide) (by decide) (by decide) rfl rfl (by decide)).1
  · exact (direction_toggle regD bindsD 60 0 reqB sA
      ⟨"04A2B3", some "S1", BadgeState.ACTIVE⟩ "S1"
      (by decide) (by decide) (by decide) rfl rfl (by decide)).1
  · exact (direction_toggle regD bindsD 60 0 reqC sB
      ⟨"04A2B3", some "S1", BadgeState.ACTIVE⟩ "S1"
      (by decide) (by decide) (by decide) rfl rfl (by decide)).1

/-- C4: an authenticated, fresh submission whose badge binding is UNBOUND
or carries no subject creates no canonical event: the events list is
unchanged, the badge lands in the enrollment mailbox slot with the
detection time, the result is an enrollment redirect (a success, not a
rejection), and the sync engine marks such a submission synced. -/
theorem unbound_redirect (registry : List (String × String))
    (binds : List BadgeBinding) (window now : Nat) (req : SubmitRequest)
    (s : ServerState) (b : BadgeBinding)
    (hauth : authenticate registry req.device_id req.api_key = true)
    (hfresh : findByKey s.events req.idempotency_key = none)
    (hbind : lookupBinding binds req.badge_id = some b)
    (hunbound : b.state = BadgeState.UNBOUND
        ∨ (b.state = BadgeState.ACTIVE ∧ b.subject_id = none)) :
    submit registry binds window now req s
      = (SubmitResult.enrollment_redirect,
         { s with mailbox := some ⟨req.badge_id, now⟩ })
    ∧ (submit registry binds window now req s).2.events = s.events
    ∧ (submit registry binds window now req s).2.mailbox
        = some ⟨req.badge_id, now⟩
    ∧ ∀ (st : EngineState) (lid : String) (now2 maxDelay : Nat),
        handleSubmitResult st lid
            (TransportResult.ok SubmitResult.enrollment_redirect)
            now2 maxDelay
          = { st with buffer := mark_synced st.buffer lid } := by
  have hmain : submit registry binds window now req s
      = (SubmitResult.enrollment_redirect,
         { s with mailbox := some ⟨req.badge_id, now⟩ }) := by
    unfold submit routeBinding
    rcases hunbound with hU | ⟨hA2, hN⟩
    · simp [hauth, hfresh, hbind, hU, publish]
    · simp [hauth, hfresh, hbind, hA2, hN, publish]
  refine ⟨hmain, by rw [hmain], by rw [hmain],
    fun st lid now2 maxDelay => rfl⟩

/-- C4 witness: a tap with the UNBOUND badge 04NEW creates no event and
leaves 04NEW in the mailbox slot. -/
theorem unbound_redirect_witness :
    submit regD bindsU 60 777 ⟨"dev1", "key1", "04NEW", 500, "k9"⟩ s0D
      = (SubmitResult.enrollment_redirect,
         { s0D with mailbox := some ⟨"04NEW", 777⟩ })
    ∧ (submit regD bindsU 60 777 ⟨"dev1", "key1", "04NEW", 500, "k9"⟩
        s0D).2.events = s0D.events := by
  have h := unbound_redirect regD bindsU 60 777
    ⟨"dev1", "key1", "04NEW", 500, "k9"⟩ s0D
    ⟨"04NEW", none, BadgeState.UNBOUND⟩
    (by decide) (by decide) (by decide) (Or.inl rfl)
  exact ⟨h.1, h.2.1⟩

end NFCCore
